import Mathlib

/-!
Verification of the lightshowpi core against its natural-language
specification.  The Python sources are shallowly embedded: pure numeric code
becomes functions over `ℚ` (or `ℝ` for the logarithmic frequency math),
stateful loops become explicit recursions over chunk streams, and fallible
code returns `Except`-style results.  Machine floats are idealised as exact
rationals/reals; every counterexample below is reproducible at dyadic inputs
where float rounding plays no role.
-/

namespace LightshowPi

/-- Physical write issued to the GPIO layer by the hardware controller: a
software-PWM duty value, a digital level, or no write at all (the code path
falls through without touching the pin, leaving its previous state). -/
inductive Write where
  | pwm (duty : ℤ)
  | digital (level : ℤ)
  | none
deriving DecidableEq, Repr

/-- Static hardware configuration, mirroring the module-level globals of
`hardware_controller.py`: `_PWM_MAX`, `_ACTIVE_LOW_MODE`, `is_pin_pwm`,
`_ALWAYS_ON_CHANNELS`, `_ALWAYS_OFF_CHANNELS`, `_INVERTED_CHANNELS`.
Channel lists hold 1-based channel numbers, exactly as in the config file. -/
structure HwConfig where
  pwmMax : ℤ
  activeLow : Bool
  isPinPwm : ℕ → Bool
  alwaysOn : List ℕ
  alwaysOff : List ℕ
  inverted : List ℕ

/-- Digital level meaning "electrically active" (`_GPIOACTIVE`). -/
def gpioActive (hw : HwConfig) : ℤ := if hw.activeLow then 0 else 1

/-- Digital level meaning "electrically inactive" (`_GPIOINACTIVE`). -/
def gpioInactive (hw : HwConfig) : ℤ := if hw.activeLow then 1 else 0

/-- PWM duty meaning "fully active" (`_PWM_ON`). -/
def pwmOn (hw : HwConfig) : ℤ := if hw.activeLow then 0 else hw.pwmMax

/-- PWM duty meaning "fully inactive" (`_PWM_OFF`). -/
def pwmOff (hw : HwConfig) : ℤ := if hw.activeLow then hw.pwmMax else 0

/-- Brightness clamping performed inline by `turn_on_light`:
first `if brightness < 0.0: brightness = 0.0`,
then `if brightness > 1.0: brightness = 1.0` (the source applies the two
clamps in the opposite textual order, `< 0` after `> 1`; for a plain value
the two orders agree and this is the order used on the PWM path). -/
def clampCode (x : ℚ) : ℚ :=
  let y : ℚ := if x < 0 then 0 else x
  if y > 1 then 1 else y

/-- Embedding of `hardware_controller.turn_on_light(pin, use_overrides,
brightness)`.  PWM path: optional active-low inversion, clamping, override
application (always-off forces 0, elif always-on forces 1, then a separate
`if` inverts), and a duty write of `int(brightness * _PWM_MAX)` (the product
is nonnegative here, so Python truncation is the floor).  Binary path with
overrides: writes the active level unless the channel is always-off (no write
at all) or inverted (inactive level). -/
def turn_on_light (hw : HwConfig) (pin : ℕ) (use_overrides : Bool)
    (brightness : ℚ) : Write :=
  if hw.isPinPwm pin then
    let b1 : ℚ := if hw.activeLow then 1 - brightness else brightness
    let b2 : ℚ := clampCode b1
    let b3 : ℚ :=
      if use_overrides then
        let b := if pin + 1 ∈ hw.alwaysOff then 0
                 else if pin + 1 ∈ hw.alwaysOn then 1 else b2
        if pin + 1 ∈ hw.inverted then 1 - b else b
      else b2
    Write.pwm (Int.floor (b3 * (hw.pwmMax : ℚ)))
  else if use_overrides then
    if pin + 1 ∉ hw.alwaysOff then
      if pin + 1 ∉ hw.inverted then Write.digital (gpioActive hw)
      else Write.digital (gpioInactive hw)
    else Write.none
  else Write.digital (gpioActive hw)

/-- Embedding of `hardware_controller.turn_off_light(pin, use_overrides)`.
With overrides, a PWM pin is delegated to `turn_on_light` with the raw duty
constant `_PWM_OFF` passed as the brightness argument (exactly as in the
source); a binary pin writes the inactive level unless always-off (no write)
or inverted (active level).  Note the overrides path never consults the
always-on list. -/
def turn_off_light (hw : HwConfig) (pin : ℕ) (use_overrides : Bool) : Write :=
  if use_overrides then
    if hw.isPinPwm pin then
      turn_on_light hw pin use_overrides ((pwmOff hw : ℤ) : ℚ)
    else
      if pin + 1 ∉ hw.alwaysOff then
        if pin + 1 ∉ hw.inverted then Write.digital (gpioInactive hw)
        else Write.digital (gpioActive hw)
      else Write.none
  else
    if hw.isPinPwm pin then Write.pwm (pwmOff hw)
    else Write.digital (gpioInactive hw)

/-- Per-pin dispatch of `synchronized_lights.update_lights`: a binary pin is
turned on (with overrides, default brightness 1.0) when the computed
brightness exceeds 0.5 and turned off (with overrides) otherwise; a PWM pin
is driven with the brightness itself. -/
def drive (hw : HwConfig) (pin : ℕ) (brightness : ℚ) : Write :=
  if ¬ hw.isPinPwm pin then
    if brightness > 1 / 2 then turn_on_light hw pin true 1
    else turn_off_light hw pin true
  else turn_on_light hw pin true brightness

/-- Brightness normalisation performed by `update_lights` for one pin:
`brightness = matrix[pin] - mean[pin] + 0.5 * std[pin]`, divided by
`1.25 * std[pin]`, then clamped above at 1 and below at 0 (in that order). -/
def normalize_brightness (level mean std : ℚ) : ℚ :=
  let b0 : ℚ := (level - mean + (1 / 2) * std) / ((5 / 4) * std)
  let b1 : ℚ := if b0 > 1 then 1 else b0
  if b1 < 0 then 0 else b1

/-- One pin of `update_lights`: normalise, then drive. -/
def update_lights_pin (hw : HwConfig) (pin : ℕ) (level mean std : ℚ) : Write :=
  drive hw pin (normalize_brightness level mean std)

/-- Closed clamp used by the specification text: clamp(x, 0, 1). -/
def clamp01 (x : ℚ) : ℚ := max 0 (min 1 x)

/-- Binary channel configuration whose channel 1 is in the always-on list;
used to exhibit the failure of the always-on override on the off path. -/
def hwBinAlwaysOn : HwConfig :=
  { pwmMax := 100, activeLow := false, isPinPwm := fun _ => false,
    alwaysOn := [1], alwaysOff := [], inverted := [] }

/-- PWM channel, active-high, channel 1 always-off. -/
def hwW1 : HwConfig :=
  { pwmMax := 100, activeLow := false, isPinPwm := fun _ => true,
    alwaysOn := [], alwaysOff := [1], inverted := [] }

/-- PWM channel, active-high, channel 1 always-on. -/
def hwW2 : HwConfig :=
  { pwmMax := 100, activeLow := false, isPinPwm := fun _ => true,
    alwaysOn := [1], alwaysOff := [], inverted := [] }

/-- PWM channel, active-high, no overrides. -/
def hwW3 : HwConfig :=
  { pwmMax := 100, activeLow := false, isPinPwm := fun _ => true,
    alwaysOn := [], alwaysOff := [], inverted := [] }

/-- Binary channel, active-high, channel 1 always-off. -/
def hwW4 : HwConfig :=
  { pwmMax := 100, activeLow := false, isPinPwm := fun _ => false,
    alwaysOn := [], alwaysOff := [1], inverted := [] }

/-- Binary channel, active-high, no overrides. -/
def hwW5 : HwConfig :=
  { pwmMax := 100, activeLow := false, isPinPwm := fun _ => false,
    alwaysOn := [], alwaysOff := [], inverted := [] }

/-- PWM channel, active-low, channel 1 always-off. -/
def hwW6 : HwConfig :=
  { pwmMax := 100, activeLow := true, isPinPwm := fun _ => true,
    alwaysOn := [], alwaysOff := [1], inverted := [] }

/-- Exit status of the chunk-processing loop inside play_song: decoder
exhausted (normal for-loop termination), cooperative interrupt break
(play_now observed set), or an IndexError raised by reading past the end of
the cache matrix. -/
inductive LoopExit where
  | finished
  | interrupted
  | indexError
deriving DecidableEq, Repr

/-- Observable outcome of the play_song chunk loop: how it exited, how many
chunks were written to the audio sink, which cache rows drove light updates
(in order), and how many times the interrupt flag was polled (one
cm.load_state / cm.get_state pair per poll). -/
structure LoopResult where
  exit : LoopExit
  audioWritten : ℕ
  lightRowsUsed : List ℕ
  polls : ℕ
deriving DecidableEq, Repr

/-- Embedding of the chunk loop of synchronized_lights.play_song.  Iteration
i handles decoded chunk i: if play_now is set the loop breaks before writing
anything; otherwise the chunk is written to the audio sink; if wall time is
still inside the configured light-show delay the iteration ends there (the
source does continue, skipping both the light update and the state poll);
otherwise cache row `row` is read (reading past the cached rows raises
IndexError after the audio write), the lights are updated from that row, the
application state is re-read, play_now is re-sampled, and the row cursor
advances by one.  `d` is the number of chunk periods covered by the delay
and `flag i` is the persisted play_now value the poll in iteration i
observes. -/
def playLoopAux (d cacheRows : ℕ) (flag : ℕ → Bool) :
    ℕ → ℕ → ℕ → Bool → ℕ → List ℕ → ℕ → LoopResult
  | 0, _, _, _, audio, lights, polls =>
    ⟨LoopExit.finished, audio, lights, polls⟩
  | remaining + 1, i, row, playNow, audio, lights, polls =>
    if playNow then ⟨LoopExit.interrupted, audio, lights, polls⟩
    else
      if i < d then
        playLoopAux d cacheRows flag remaining (i + 1) row playNow
          (audio + 1) lights polls
      else if row < cacheRows then
        playLoopAux d cacheRows flag remaining (i + 1) (row + 1) (flag i)
          (audio + 1) (lights ++ [row]) (polls + 1)
      else ⟨LoopExit.indexError, audio + 1, lights, polls⟩

/-- Whole loop on a song of `n` decoded chunks, `d` delay periods,
`cacheRows` cached level rows, initial play_now value `p0`. -/
def playLoop (n d cacheRows : ℕ) (p0 : Bool) (flag : ℕ → Bool) : LoopResult :=
  playLoopAux d cacheRows flag n 0 0 p0 0 [] 0

/-- Python-level error classes raised by the embedded fragments. -/
inductive PyError where
  | typeError
  | unboundLocal
  | indexError
  | ioError
  | configParserError
deriving DecidableEq, Repr

/-- Parameter count of audio_output.get_audio_output_handler; all four
parameters (num_channels, sample_rate, song_title, chunk_size) are
mandatory, none has a default. -/
def get_audio_output_handler_arity : ℕ := 4

/-- Positional argument count at the call site in
synchronized_lights.play_song: num_channels, sample_rate, song_title. -/
def play_song_handler_args : ℕ := 3

/-- Python call binding for a plain function with no defaults and no
varargs: the call succeeds iff the argument count equals the parameter
count, otherwise it raises TypeError before the body runs. -/
def pythonCall (arity args : ℕ) : Except PyError Unit :=
  if args = arity then Except.ok () else Except.error PyError.typeError

/-- Cached-mode playback after the precompute join: construct the audio
sink by calling get_audio_output_handler, then, only if that call bound,
run the chunk loop. -/
def play_song_playback (n d cacheRows : ℕ) (p0 : Bool) (flag : ℕ → Bool) :
    Except PyError LoopResult :=
  match pythonCall get_audio_output_handler_arity play_song_handler_args with
  | Except.error e => Except.error e
  | Except.ok _ => Except.ok (playLoop n d cacheRows p0 flag)

/-- Final hardware write issued per pin at the end of play_song:
hc.clean_up calls turn_off_all_lights(), i.e. turn_off_light without
overrides, before releasing the pins. -/
def clean_up_write (hw : HwConfig) (pin : ℕ) : Write :=
  turn_off_light hw pin false

/-- The eight configuration values fft.FFT.compare_config assembles into
its fft_current dictionary, in the representation the sidecar parse
reconstructs: custom_channel_mapping and custom_channel_frequencies are a
plain int (0 means disabled; a one-element parse also collapses to an int)
or a list of ints. -/
structure FFTFields where
  chunk_size : ℤ
  sample_rate : ℤ
  num_bins : ℤ
  min_frequency : ℚ
  max_frequency : ℚ
  custom_channel_mapping : ℤ ⊕ List ℤ
  custom_channel_frequencies : ℤ ⊕ List ℤ
  input_channels : ℤ
deriving DecidableEq, Repr

/-- Possible states of the .cfg sidecar as seen by compare_config:
the file is absent (os.path.isfile false); present but not parseable at the
config.readfp call (that call sits outside the try, so the ConfigParser
error escapes); present but with a get inside the try failing (missing
section/option or malformed int); or fully parsed into field values. -/
inductive SidecarConfig where
  | missing
  | unreadable
  | badFields
  | parsed (fields : FFTFields)

/-- Embedding of fft.FFT.compare_config: returns false when the sidecar is
absent; lets a readfp-level parse error escape; returns false when a field
get fails (has_config is cleared and the partial dict cannot equal the full
one); otherwise compares the parsed dict against the current one. -/
def compare_config (sidecar : SidecarConfig) (current : FFTFields) :
    Except PyError Bool :=
  match sidecar with
  | SidecarConfig.missing => Except.ok false
  | SidecarConfig.unreadable => Except.error PyError.configParserError
  | SidecarConfig.badFields => Except.ok false
  | SidecarConfig.parsed fields => Except.ok (decide (fields = current))

/-- Persistence order used by cache_song: the per-chunk level rows are
vstacked under the mean row and then under the std row before
np.savetxt, so the stored matrix is std row, mean row, then the level rows
in original chunk order. -/
def cache_store (mean std : List ℚ) (rows : List (List ℚ)) :
    List (List ℚ) :=
  std :: mean :: rows

/-- Row extraction performed by load_cached_fft on a loaded matrix: std is
row 0, mean is row 1, and the two np.delete calls leave the level rows; a
matrix with fewer than two rows would make the indexing raise. -/
def cache_load (m : List (List ℚ)) :
    Except PyError (List ℚ × List ℚ × List (List ℚ)) :=
  match m with
  | stdRow :: meanRow :: rest => Except.ok (meanRow, stdRow, rest)
  | _ => Except.error PyError.indexError

/-- Embedding of synchronized_lights.load_cached_fft.  `syncFile` is the
content of the .sync matrix sidecar, or none when np.loadtxt raises IOError
(file absent or unreadable).  On that IOError, and likewise when the
configuration comparison fails (the code raises IOError itself), the except
branch logs and then executes `return mean, std, cache_matrix` with mean and
std never assigned, raising UnboundLocalError. -/
def load_cached_fft (configMatches : Bool)
    (syncFile : Option (List (List ℚ))) :
    Except PyError (List ℚ × List ℚ × List (List ℚ)) :=
  match syncFile with
  | Option.none => Except.error PyError.unboundLocal
  | Option.some m =>
    if configMatches then cache_load m
    else Except.error PyError.unboundLocal

/-- Boolean success test for an embedded Python computation. -/
def exceptIsOk {α : Type} : Except PyError α → Bool
  | Except.ok _ => true
  | Except.error _ => false

/-- The analysis loop of cache_song's rebuild path: stream chunks through
fft_calc.calculate_levels, stacking one level row per chunk; a decode
failure raises out of the loop immediately, discarding the partial stack. -/
def rebuild_rows : List (Except PyError (List ℚ)) →
    Except PyError (List (List ℚ))
  | [] => Except.ok []
  | Except.error e :: _ => Except.error e
  | Except.ok r :: rest =>
    match rebuild_rows rest with
    | Except.ok rs => Except.ok (r :: rs)
    | Except.error e => Except.error e

/-- Files cache_song can write, in the order it writes them. -/
inductive FileWrite where
  | syncMatrix (m : List (List ℚ))
  | configSidecar
deriving DecidableEq, Repr

/-- Embedding of synchronized_lights.cache_song.  `configMatches` is the
result of the initial fft_calc.compare_config call; when it holds the cache
is loaded via load_cached_fft, otherwise the rebuild path runs: all chunks
are analysed, the per-column statistics over positive samples are computed
(`statsOf`, abstracted because np.std is irrational in general), the
stats-topped matrix is written with np.savetxt and the configuration
sidecar with save_config — both only after the full pass — and the rebuild
path returns the mean, std and the full stacked matrix.  The first
component lists the files written, in order. -/
def cache_song_model (configMatches : Bool)
    (syncFile : Option (List (List ℚ)))
    (chunks : List (Except PyError (List ℚ)))
    (statsOf : List (List ℚ) → List ℚ × List ℚ) :
    List FileWrite × Except PyError (List ℚ × List ℚ × List (List ℚ)) :=
  if configMatches then
    ([], load_cached_fft configMatches syncFile)
  else
    match rebuild_rows chunks with
    | Except.error e => ([], Except.error e)
    | Except.ok rows =>
      let mean := (statsOf rows).1
      let std := (statsOf rows).2
      ([FileWrite.syncMatrix (cache_store mean std rows),
        FileWrite.configSidecar],
       Except.ok (mean, std, cache_store mean std rows))

/-- Chunk stream whose second chunk fails to decode. -/
def chunksW6bad : List (Except PyError (List ℚ)) :=
  [Except.ok [1], Except.error PyError.ioError]

/-- Chunk stream that decodes completely. -/
def chunksW6good : List (Except PyError (List ℚ)) :=
  [Except.ok [1]]

/-- Concrete stand-in for the positive-sample statistics pass. -/
def statsW6 : List (List ℚ) → List ℚ × List ℚ := fun _ => ([12], [2])

/-- Configuration fingerprint used by the C3 witness. -/
def cfgW3a : FFTFields :=
  { chunk_size := 2048, sample_rate := 44100, num_bins := 8,
    min_frequency := 20, max_frequency := 15000,
    custom_channel_mapping := Sum.inl 0,
    custom_channel_frequencies := Sum.inl 0, input_channels := 2 }

/-- Same fingerprint as cfgW3a with only chunk_size changed. -/
def cfgW3b : FFTFields :=
  { chunk_size := 1024, sample_rate := 44100, num_bins := 8,
    min_frequency := 20, max_frequency := 15000,
    custom_channel_mapping := Sum.inl 0,
    custom_channel_frequencies := Sum.inl 0, input_channels := 2 }

/-- Octave count of the selected frequency range as computed by
fft.FFT.calculate_channel_frequency: log(max/min) / log(2). -/
noncomputable def octaves (minF maxF : ℝ) : ℝ :=
  Real.log (maxF / minF) / Real.log 2

/-- Octaves assigned to each channel: octaves / channel_length (without a
custom mapping, channel_length is num_bins). -/
noncomputable def octaves_per_channel (minF maxF : ℝ) (n : ℕ) : ℝ :=
  octaves minF maxF / n

/-- The per-channel boundary multiplier, literally the source expression
10 ** (3 / (10 * (1 / octaves_per_channel))); note 3/10 is only an
approximation of log10(2) = 0.30103, so this ratio is slightly below one
octave step. -/
noncomputable def freqRatio (minF maxF : ℝ) (n : ℕ) : ℝ :=
  (10 : ℝ) ^ (3 / (10 * (1 / octaves_per_channel minF maxF n)))

/-- Boundary i of frequency_limits: the list starts at min_frequency and
each iteration appends the previous boundary times the multiplier. -/
noncomputable def freqLimit (minF maxF : ℝ) (n : ℕ) : ℕ → ℝ
  | 0 => minF
  | i + 1 => freqLimit minF maxF n i * freqRatio minF maxF n

/-- calculate_channel_frequency on the path with no custom channel mapping
and no custom channel frequencies: channel i receives the band
(frequency_limits[i], frequency_limits[i+1]) for i = 0 .. num_bins − 1. -/
noncomputable def calculate_channel_frequency (minF maxF : ℝ) (n : ℕ) :
    List (ℝ × ℝ) :=
  (List.range n).map
    (fun i => (freqLimit minF maxF n i, freqLimit minF maxF n (i + 1)))

theorem drive_bin_on (hw : HwConfig) (pin : ℕ) (b : ℚ)
    (hp : hw.isPinPwm pin = false) (hb : 1 / 2 < b) :
    drive hw pin b = turn_on_light hw pin true 1 := by
  unfold drive
  rw [hp, if_pos hb]
  simp

theorem drive_bin_off (hw : HwConfig) (pin : ℕ) (b : ℚ)
    (hp : hw.isPinPwm pin = false) (hb : b ≤ 1 / 2) :
    drive hw pin b = turn_off_light hw pin true := by
  unfold drive
  rw [hp, if_neg (not_lt.mpr hb)]
  simp

theorem turn_on_light_bin (hw : HwConfig) (pin : ℕ) (br : ℚ)
    (hp : hw.isPinPwm pin = false) :
    turn_on_light hw pin true br =
      if pin + 1 ∈ hw.alwaysOff then Write.none
      else if pin + 1 ∈ hw.inverted then Write.digital (gpioInactive hw)
      else Write.digital (gpioActive hw) := by
  unfold turn_on_light
  rw [hp]
  by_cases hoff : pin + 1 ∈ hw.alwaysOff <;>
    by_cases hinv : pin + 1 ∈ hw.inverted <;> simp [hoff, hinv]

theorem turn_off_light_bin (hw : HwConfig) (pin : ℕ)
    (hp : hw.isPinPwm pin = false) :
    turn_off_light hw pin true =
      if pin + 1 ∈ hw.alwaysOff then Write.none
      else if pin + 1 ∈ hw.inverted then Write.digital (gpioActive hw)
      else Write.digital (gpioInactive hw) := by
  unfold turn_off_light
  rw [hp]
  by_cases hoff : pin + 1 ∈ hw.alwaysOff <;>
    by_cases hinv : pin + 1 ∈ hw.inverted <;> simp [hoff, hinv]

theorem clampCode_one_sub (b : ℚ) : clampCode (1 - b) = 1 - clampCode b := by
  unfold clampCode
  rcases lt_trichotomy b 0 with hb | hb | hb
  · have h1 : ¬(1 - b < 0) := by linarith
    have h2 : 1 - b > 1 := by linarith
    simp only [if_pos hb, if_neg h1, if_pos h2]
    norm_num
  · subst hb; norm_num
  · rcases le_or_lt b 1 with hb1 | hb1
    · have h1 : ¬(1 - b < 0) := by linarith
      have h2 : ¬(1 - b > 1) := by linarith
      have h3 : ¬(b < 0) := by linarith
      have h4 : ¬(b > 1) := by linarith
      simp [if_neg h1, if_neg h2, if_neg h3, if_neg h4]
    · have h1 : 1 - b < 0 := by linarith
      have h3 : ¬(b < 0) := by linarith
      have h2 : ¬((0 : ℚ) > 1) := by norm_num
      simp only [if_pos h1, if_neg h3, if_pos hb1, if_neg h2]
      norm_num

theorem normalize_eq_clamp (level mean std : ℚ) :
    normalize_brightness level mean std
      = clamp01 ((level - mean + (1 / 2) * std) / ((5 / 4) * std)) := by
  unfold normalize_brightness clamp01
  set r : ℚ := (level - mean + (1 / 2) * std) / ((5 / 4) * std) with hr
  rcases lt_trichotomy r 0 with h | h | h
  · have h1 : ¬(r > 1) := by linarith
    simp only [if_neg h1, if_pos h]
    rw [min_eq_right (by linarith : r ≤ 1), max_eq_left (by linarith : r ≤ 0)]
  · simp only [h]
    norm_num
  · rcases le_or_lt r 1 with h1 | h1
    · have h2 : ¬(r > 1) := by linarith
      have h3 : ¬(r < 0) := by linarith
      simp only [if_neg h2, if_neg h3]
      rw [min_eq_right h1, max_eq_right (le_of_lt h)]
    · have h3 : ¬((1 : ℚ) < 0) := by norm_num
      simp only [if_pos h1, if_neg h3]
      rw [min_eq_left (le_of_lt h1), max_eq_right (by norm_num : (0:ℚ) ≤ 1)]

theorem clamp01_nonneg (x : ℚ) : 0 ≤ clamp01 x := le_max_left 0 (min 1 x)

theorem clamp01_le_one (x : ℚ) : clamp01 x ≤ 1 :=
  max_le (by norm_num) (min_le_left 1 x)

/-- C1 counterexample: in the binary on/off path, a channel listed in
`always_on` is nevertheless driven to the physically inactive level whenever
the incoming brightness is at most 0.5, because `turn_off_light` never
consults the always-on list.  Concretely, channel 1 (pin 0) of
`hwBinAlwaysOn` driven with brightness 0 yields the inactive digital level,
not the active one demanded by the claim. -/
theorem C1_counterexample :
    drive hwBinAlwaysOn 0 0 = Write.digital (gpioInactive hwBinAlwaysOn) ∧
    (0 : ℕ) + 1 ∈ hwBinAlwaysOn.alwaysOn ∧
    gpioInactive hwBinAlwaysOn ≠ gpioActive hwBinAlwaysOn := by
  refine ⟨?_, by decide, by decide⟩
  have hp : hwBinAlwaysOn.isPinPwm 0 = false := rfl
  rw [drive_bin_off _ _ _ hp (by norm_num), turn_off_light_bin _ _ hp]
  simp [hwBinAlwaysOn]

/-- C1 (amended): override semantics that actually hold in
`hardware_controller.py`.  (1) An active-high PWM channel in `always_off`
(and not inverted) is driven to duty 0, the inactive duty.  (2) An
active-high PWM channel in `always_on` (not in `always_off`, not inverted)
is driven to full duty, the active duty.  (3) For a PWM channel outside both
always lists, inverting it yields exactly the write of the non-inverted
channel at brightness 1 − b, in both polarity modes.  (4) A binary channel
in `always_off` is never written at all (it holds its previous state rather
than being driven inactive).  (5) For a binary channel, inversion agrees
with driving the non-inverted channel at 1 − b except at the threshold
b = 1/2.  (6) Under active-low mode a PWM `always_off` channel is driven to
duty 0 — which is the fully ACTIVE duty, because the overrides are applied
after the polarity inversion. -/
theorem C1_theorem (hw : HwConfig) (pin : ℕ) (b : ℚ) :
    (hw.isPinPwm pin = true → hw.activeLow = false →
      pin + 1 ∈ hw.alwaysOff → pin + 1 ∉ hw.inverted →
      drive hw pin b = Write.pwm (pwmOff hw)) ∧
    (hw.isPinPwm pin = true → hw.activeLow = false →
      pin + 1 ∉ hw.alwaysOff → pin + 1 ∈ hw.alwaysOn → pin + 1 ∉ hw.inverted →
      drive hw pin b = Write.pwm (pwmOn hw)) ∧
    (hw.isPinPwm pin = true →
      pin + 1 ∉ hw.alwaysOff → pin + 1 ∉ hw.alwaysOn → pin + 1 ∉ hw.inverted →
      drive { hw with inverted := (pin + 1) :: hw.inverted } pin b
        = drive hw pin (1 - b)) ∧
    (hw.isPinPwm pin = false → pin + 1 ∈ hw.alwaysOff →
      drive hw pin b = Write.none) ∧
    (hw.isPinPwm pin = false → pin + 1 ∉ hw.inverted → b ≠ 1 / 2 →
      drive { hw with inverted := (pin + 1) :: hw.inverted } pin b
        = drive hw pin (1 - b)) ∧
    (hw.isPinPwm pin = true → hw.activeLow = true →
      pin + 1 ∈ hw.alwaysOff → pin + 1 ∉ hw.inverted →
      drive hw pin b = Write.pwm 0 ∧ pwmOn hw = 0) := by
  refine ⟨?_, ?_, ?_, ?_, ?_, ?_⟩
  · intro hp hal hoff hinv
    simp [drive, turn_on_light, hp, hal, hoff, hinv, pwmOff]
  · intro hp hal hoff hon hinv
    simp [drive, turn_on_light, hp, hal, hoff, hon, hinv, pwmOn]
  · intro hp hoff hon hinv
    cases hal : hw.activeLow
    · simp [drive, turn_on_light, hp, hal, hoff, hon, hinv, clampCode_one_sub]
    · simp only [drive, turn_on_light, hp, hal, hoff, hon, hinv]
      simp [clampCode_one_sub, sub_sub_cancel]
  · intro hp hoff
    rcases le_or_lt b (1 / 2) with hb | hb
    · rw [drive_bin_off _ _ _ hp hb, turn_off_light_bin _ _ hp, if_pos hoff]
    · rw [drive_bin_on _ _ _ hp hb, turn_on_light_bin _ _ _ hp, if_pos hoff]
  · intro hp hinv hb
    have hp2 :
        ({ hw with inverted := (pin + 1) :: hw.inverted } : HwConfig).isPinPwm
          pin = false := hp
    rcases lt_or_gt_of_ne hb with hlt | hgt
    · have h2 : 1 / 2 < 1 - b := by linarith
      rw [drive_bin_off _ _ _ hp2 (le_of_lt hlt), drive_bin_on _ _ _ hp h2,
          turn_off_light_bin _ _ hp2, turn_on_light_bin _ _ _ hp]
      by_cases hoff : pin + 1 ∈ hw.alwaysOff
      · simp [hoff]
      · simp [hoff, hinv, gpioActive, gpioInactive]
    · have h2 : 1 - b ≤ 1 / 2 := by linarith
      rw [drive_bin_on _ _ _ hp2 hgt, drive_bin_off _ _ _ hp h2,
          turn_on_light_bin _ _ _ hp2, turn_off_light_bin _ _ hp]
      by_cases hoff : pin + 1 ∈ hw.alwaysOff
      · simp [hoff]
      · simp [hoff, hinv, gpioActive, gpioInactive]
  · intro hp hal hoff hinv
    constructor
    · simp [drive, turn_on_light, hp, hal, hoff, hinv]
    · simp [pwmOn, hal]

/-- C1 witness: each conjunct of the amended theorem exercised on a concrete
configuration and brightness 3/4. -/
theorem C1_theorem_witness :
    drive hwW1 0 (3 / 4) = Write.pwm (pwmOff hwW1) ∧
    drive hwW2 0 (3 / 4) = Write.pwm (pwmOn hwW2) ∧
    drive { hwW3 with inverted := (0 + 1) :: hwW3.inverted } 0 (3 / 4)
      = drive hwW3 0 (1 - 3 / 4) ∧
    drive hwW4 0 (3 / 4) = Write.none ∧
    drive { hwW5 with inverted := (0 + 1) :: hwW5.inverted } 0 (3 / 4)
      = drive hwW5 0 (1 - 3 / 4) ∧
    drive hwW6 0 (3 / 4) = Write.pwm 0 ∧ pwmOn hwW6 = 0 :=
  ⟨(C1_theorem hwW1 0 (3 / 4)).1 rfl rfl (by decide) (by decide),
   (C1_theorem hwW2 0 (3 / 4)).2.1 rfl rfl (by decide) (by decide) (by decide),
   (C1_theorem hwW3 0 (3 / 4)).2.2.1 rfl (by decide) (by decide) (by decide),
   (C1_theorem hwW4 0 (3 / 4)).2.2.2.1 rfl (by decide),
   (C1_theorem hwW5 0 (3 / 4)).2.2.2.2.1 rfl (by decide) (by norm_num),
   (C1_theorem hwW6 0 (3 / 4)).2.2.2.2.2 rfl rfl (by decide) (by decide)⟩

/-- C7: in the synced playback loop, the brightness handed to the channel
driver for each pin is exactly clamp((level − mean + 0.5·std) / (1.25·std),
0, 1); it always lies in [0, 1]; and a binary (non-PWM) pin is sent down the
override-aware ON path exactly when that brightness exceeds 0.5, and down
the override-aware OFF path otherwise. -/
theorem C7_theorem (hw : HwConfig) (pin : ℕ) (level mean std : ℚ)
    (h : 0 < std) :
    normalize_brightness level mean std
      = clamp01 ((level - mean + (1 / 2) * std) / ((5 / 4) * std)) ∧
    0 ≤ normalize_brightness level mean std ∧
    normalize_brightness level mean std ≤ 1 ∧
    (hw.isPinPwm pin = false →
      update_lights_pin hw pin level mean std =
        if normalize_brightness level mean std > 1 / 2
        then turn_on_light hw pin true 1
        else turn_off_light hw pin true) := by
  refine ⟨normalize_eq_clamp level mean std, ?_, ?_, ?_⟩
  · rw [normalize_eq_clamp]; exact clamp01_nonneg _
  · rw [normalize_eq_clamp]; exact clamp01_le_one _
  · intro hp
    simp [update_lights_pin, drive, hp]

/-- C7 witness: level 13, mean 12, std 2 on a binary pin; the normalised
brightness is 4/5 and the claim instance holds. -/
theorem C7_theorem_witness :
    normalize_brightness 13 12 2
      = clamp01 ((13 - 12 + (1 / 2) * 2) / ((5 / 4) * 2)) ∧
    0 ≤ normalize_brightness 13 12 2 ∧
    normalize_brightness 13 12 2 ≤ 1 ∧
    (hwW5.isPinPwm 0 = false →
      update_lights_pin hwW5 0 13 12 2 =
        if normalize_brightness 13 12 2 > 1 / 2
        then turn_on_light hwW5 0 true 1
        else turn_off_light hwW5 0 true) :=
  C7_theorem hwW5 0 13 12 2 (by norm_num)

theorem playLoopAux_step_break (d c : ℕ) (f : ℕ → Bool)
    (r i row audio polls : ℕ) (lights : List ℕ) :
    playLoopAux d c f (r + 1) i row true audio lights polls
      = ⟨LoopExit.interrupted, audio, lights, polls⟩ := by
  simp [playLoopAux]

theorem playLoopAux_step_delay (d c : ℕ) (f : ℕ → Bool)
    (r i row audio polls : ℕ) (lights : List ℕ) (hi : i < d) :
    playLoopAux d c f (r + 1) i row false audio lights polls
      = playLoopAux d c f r (i + 1) row false (audio + 1) lights polls := by
  simp [playLoopAux, hi]

theorem playLoopAux_step_sync (d c : ℕ) (f : ℕ → Bool)
    (r i row audio polls : ℕ) (lights : List ℕ)
    (hi : d ≤ i) (hrow : row < c) :
    playLoopAux d c f (r + 1) i row false audio lights polls
      = playLoopAux d c f r (i + 1) (row + 1) (f i) (audio + 1)
          (lights ++ [row]) (polls + 1) := by
  simp [playLoopAux, Nat.not_lt.mpr hi, hrow]

theorem playLoopAux_step_index (d c : ℕ) (f : ℕ → Bool)
    (r i row audio polls : ℕ) (lights : List ℕ)
    (hi : d ≤ i) (hrow : c ≤ row) :
    playLoopAux d c f (r + 1) i row false audio lights polls
      = ⟨LoopExit.indexError, audio + 1, lights, polls⟩ := by
  simp [playLoopAux, Nat.not_lt.mpr hi, Nat.not_lt.mpr hrow]

theorem playLoopAux_delay_phase (d c : ℕ) (f : ℕ → Bool) :
    ∀ (k r i row audio polls : ℕ) (lights : List ℕ), i + k = d →
      playLoopAux d c f (r + k) i row false audio lights polls
        = playLoopAux d c f r d row false (audio + k) lights polls := by
  intro k
  induction k with
  | zero =>
    intro r i row audio polls lights hik
    simp only [Nat.add_zero] at hik ⊢
    rw [hik]
  | succ k ih =>
    intro r i row audio polls lights hik
    have hi : i < d := by omega
    simp only [← Nat.add_assoc]
    rw [playLoopAux_step_delay d c f (r + k) i row audio polls lights hi,
        ih r (i + 1) row (audio + 1) polls lights (by omega)]
    congr 1
    omega

theorem playLoopAux_sync_phase (d c : ℕ) (f : ℕ → Bool) :
    ∀ (k r i row audio polls : ℕ) (lights : List ℕ),
      d ≤ i → row + k ≤ c →
      (∀ j, i ≤ j → j < i + k → f j = false) →
      playLoopAux d c f (r + k) i row false audio lights polls
        = playLoopAux d c f r (i + k) (row + k) false (audio + k)
            (lights ++ List.range' row k) (polls + k) := by
  intro k
  induction k with
  | zero =>
    intro r i row audio polls lights _ _ _
    simp
  | succ k ih =>
    intro r i row audio polls lights hi hrow hf
    have hrowc : row < c := by omega
    have hrange : List.range' row (k + 1) = row :: List.range' (row + 1) k :=
      List.range'_succ row k 1
    rw [hrange]
    simp only [← Nat.add_assoc]
    rw [playLoopAux_step_sync d c f (r + k) i row audio polls lights hi hrowc]
    rw [hf i le_rfl (by omega)]
    rw [ih r (i + 1) (row + 1) (audio + 1) (polls + 1) (lights ++ [row])
        (by omega) (by omega) (fun j h1 h2 => hf j (by omega) (by omega))]
    congr 1 <;> try omega
    rw [List.append_assoc]
    simp

/-- C2 counterexample: a playback of 3 decoded chunks with no light-show
delay and a cache of a single level row.  The claim predicts all 3 chunks
are written and the loop finishes normally; in the code the second cache
read (row 1) raises IndexError, so only 2 chunks reach the sink and the
loop aborts. -/
theorem C2_counterexample :
    playLoop 3 0 1 false (fun _ => false)
      = ⟨LoopExit.indexError, 2, [0], 1⟩ ∧
    (playLoop 3 0 1 false (fun _ => false)).audioWritten ≠ 3 := by
  constructor <;> decide

/-- C2 (amended): when the decoder yields more chunks than the cache has
level rows (and no interrupt is requested), the loop does NOT keep playing
audio: on the first out-of-range row read it raises IndexError.  Audio
writes stop with the chunk that triggered the overrun (d + cacheRows + 1
chunks written out of n), the rows actually driven are exactly 0, ...,
cacheRows − 1, and the raised error escapes the loop (landing in an except
handler that itself fails on an undefined name, so playback of the song
aborts rather than holding the lights while audio continues). -/
theorem C2_theorem (n d c : ℕ) (flag : ℕ → Bool)
    (hflag : ∀ j, flag j = false) (hn : d + c < n) :
    playLoop n d c false flag
      = ⟨LoopExit.indexError, d + c + 1, List.range c, c⟩ := by
  obtain ⟨m, hm⟩ : ∃ m, n = m + 1 + c + d := ⟨n - 1 - c - d, by omega⟩
  subst hm
  unfold playLoop
  rw [playLoopAux_delay_phase d c flag d (m + 1 + c) 0 0 0 0 [] (by omega)]
  rw [playLoopAux_sync_phase d c flag c (m + 1) d 0 (0 + d) 0 []
      le_rfl (by omega) (fun j _ _ => hflag j)]
  rw [playLoopAux_step_index d c flag m (d + c) (0 + c) (0 + d + c) (0 + c)
      ([] ++ List.range' 0 c) (by omega) (by omega)]
  simp [List.range_eq_range']

/-- C2 witness: 5 chunks, one delay period, two cached rows; the loop
aborts with IndexError after writing 4 of the 5 chunks. -/
theorem C2_theorem_witness :
    playLoop 5 1 2 false (fun _ => false)
      = ⟨LoopExit.indexError, 4, List.range 2, 2⟩ :=
  C2_theorem 5 1 2 (fun _ => false) (fun _ => rfl) (by decide)

/-- C9 counterexample: with a light-show delay covering the first chunk, a
2-chunk playback polls the interrupt flag only once, not once per chunk:
the delay-phase continue skips the cm.load_state poll entirely. -/
theorem C9_counterexample :
    (playLoop 2 1 5 false (fun _ => false)).polls = 1 ∧
    (playLoop 2 1 5 false (fun _ => false)).audioWritten = 2 := by
  constructor <;> decide

/-- C9 (amended): the interrupt flag is polled exactly once per chunk only
while the loop is in the Synced state — during the delay phase no polling
happens at all.  If the externally persisted play_now flag becomes set
starting with the poll of synced chunk i0 (d ≤ i0, with cache row i0 − d
still available and at least one further chunk pending), the loop breaks
before writing chunk i0 + 1: exactly i0 + 1 chunks are written, rows
0 … i0 − d drove the lights, and one poll happened per synced chunk.
Afterwards play_song runs hc.clean_up, whose per-pin write drives every PWM
pin to the duty `_PWM_OFF`, the physically inactive duty cycle in both
polarity modes. -/
theorem C9_theorem (n d c i0 : ℕ) (hw : HwConfig) (pin : ℕ)
    (hd : d ≤ i0) (hc : i0 - d < c) (hn : i0 + 2 ≤ n)
    (hpwm : hw.isPinPwm pin = true) :
    playLoop n d c false (fun j => decide (i0 ≤ j))
      = ⟨LoopExit.interrupted, i0 + 1, List.range (i0 - d + 1), i0 - d + 1⟩ ∧
    clean_up_write hw pin = Write.pwm (pwmOff hw) := by
  constructor
  · obtain ⟨s, hs⟩ : ∃ s, i0 = d + s := ⟨i0 - d, by omega⟩
    subst hs
    simp only [Nat.add_sub_cancel_left]
    obtain ⟨m, hm⟩ : ∃ m, n = m + 1 + 1 + s + d := ⟨n - 2 - s - d, by omega⟩
    subst hm
    unfold playLoop
    rw [playLoopAux_delay_phase d c (fun j => decide (d + s ≤ j)) d
        (m + 1 + 1 + s) 0 0 0 0 [] (by omega)]
    rw [playLoopAux_sync_phase d c (fun j => decide (d + s ≤ j)) s
        (m + 1 + 1) d 0 (0 + d) 0 [] le_rfl (by omega)
        (fun j h1 h2 => by simp; omega)]
    rw [playLoopAux_step_sync d c (fun j => decide (d + s ≤ j)) (m + 1)
        (d + s) (0 + s) (0 + d + s) (0 + s) ([] ++ List.range' 0 s)
        (by omega) (by omega)]
    rw [show (decide (d + s ≤ d + s)) = true by simp]
    rw [playLoopAux_step_break d c (fun j => decide (d + s ≤ j)) m
        (d + s + 1) (0 + s + 1) (0 + d + s + 1) (0 + s + 1)
        ([] ++ List.range' 0 s ++ [0 + s])]
    have : List.range' 0 s ++ [s] = List.range (s + 1) := by
      rw [List.range_eq_range', List.range'_1_concat]
      simp
    simp only [Nat.zero_add, List.nil_append]
    rw [this]
  · unfold clean_up_write turn_off_light
    rw [hpwm]
    simp

/-- C9 witness: 4 chunks, delay 1, 3 cached rows, flag set from chunk 1 on,
one PWM pin in an active-low configuration. -/
theorem C9_theorem_witness :
    playLoop 4 1 3 false (fun j => decide (1 ≤ j))
      = ⟨LoopExit.interrupted, 2, List.range 1, 1⟩ ∧
    clean_up_write hwW6 0 = Write.pwm (pwmOff hwW6) :=
  C9_theorem 4 1 3 1 hwW6 0 (by decide) (by decide) (by decide) rfl

/-- C10: the cached-mode playback path of play_song calls
get_audio_output_handler with three positional arguments while the function
demands four mandatory parameters, so sink construction always raises
TypeError and the chunk loop (audio writes, Synced light updates) is never
reached, for every song, delay, cache size and interrupt schedule. -/
theorem C10_theorem (n d c : ℕ) (p0 : Bool) (flag : ℕ → Bool) :
    play_song_playback n d c p0 flag = Except.error PyError.typeError := by
  simp [play_song_playback, pythonCall, get_audio_output_handler_arity,
        play_song_handler_args]

/-- C3: compare_config answers ok-true exactly when the sidecar exists, its
fields all parse, and every parsed field equals the corresponding field of
the active configuration; a sidecar differing in any field (here: any
`other` configuration distinct from the current one) yields ok-false, and an
absent sidecar yields ok-false rather than an error. -/
theorem C3_theorem (sidecar : SidecarConfig) (current other : FFTFields)
    (hne : other ≠ current) :
    (compare_config sidecar current = Except.ok true ↔
      sidecar = SidecarConfig.parsed current) ∧
    compare_config (SidecarConfig.parsed other) current = Except.ok false ∧
    compare_config SidecarConfig.missing current = Except.ok false := by
  refine ⟨?_, ?_, rfl⟩
  · cases sidecar with
    | missing => simp [compare_config]
    | unreadable => simp [compare_config]
    | badFields => simp [compare_config]
    | parsed f => simp [compare_config]
  · simp [compare_config, hne]

/-- C3 witness: a matching parsed sidecar against itself, and a sidecar
differing only in chunk_size (2048 vs 1024). -/
theorem C3_theorem_witness :
    (compare_config (SidecarConfig.parsed cfgW3a) cfgW3a = Except.ok true ↔
      SidecarConfig.parsed cfgW3a = SidecarConfig.parsed cfgW3a) ∧
    compare_config (SidecarConfig.parsed cfgW3b) cfgW3a = Except.ok false ∧
    compare_config SidecarConfig.missing cfgW3a = Except.ok false :=
  C3_theorem (SidecarConfig.parsed cfgW3a) cfgW3a cfgW3b (by
    intro h
    have hcs := congrArg FFTFields.chunk_size h
    simp [cfgW3a, cfgW3b] at hcs)

/-- C4: storing a mean row, std row and level rows (std first, then mean,
then the level rows in chunk order) and loading the stored matrix returns
exactly the same mean, std and level rows, with row 0 the std row and row 1
the mean row. -/
theorem C4_theorem (mean std : List ℚ) (rows : List (List ℚ)) :
    cache_load (cache_store mean std rows)
      = Except.ok (mean, std, rows) := rfl

/-- C5: with a present and matching .cfg sidecar but an absent (or
unreadable) .sync matrix file, cache_song does not fall back to a rebuild:
load_cached_fft's except branch returns the never-assigned mean and std,
so the worker dies with UnboundLocalError (surfaced at cache_proc.get() in
play_song), no file is written, and the song is not played — even though
decodable chunks were available for a rebuild.  This contradicts both the
claim and the code's own log message, which promises that a cache "will be
generated". -/
theorem C5_theorem :
    cache_song_model true Option.none chunksW6good statsW6
      = ([], Except.error PyError.unboundLocal) := rfl

theorem rebuild_rows_isOk (chunks : List (Except PyError (List ℚ))) :
    exceptIsOk (rebuild_rows chunks)
      = chunks.all (fun c => exceptIsOk c) := by
  induction chunks with
  | nil => rfl
  | cons c rest ih =>
    cases c with
    | error e => simp [rebuild_rows, exceptIsOk]
    | ok r =>
      cases hre : rebuild_rows rest with
      | error e =>
        simp only [rebuild_rows, hre, List.all_cons]
        rw [← ih, hre]
        rfl
      | ok rs =>
        simp only [rebuild_rows, hre, List.all_cons]
        rw [← ih, hre]
        rfl

/-- C6: on the rebuild path, if any chunk of the stream fails to decode
then cache_song writes no file at all and the error escapes to the joiner
(the async result is the exception); and the two sidecar files — matrix
first, then configuration — are written exactly when the analysis pass over
the whole stream succeeds, with the matrix stacked std, mean, then all
level rows. -/
theorem C6_theorem (syncFile : Option (List (List ℚ)))
    (chunks : List (Except PyError (List ℚ)))
    (statsOf : List (List ℚ) → List ℚ × List ℚ)
    (rows : List (List ℚ)) :
    ((chunks.all fun c => exceptIsOk c) = false →
      (cache_song_model false syncFile chunks statsOf).1 = [] ∧
      exceptIsOk (cache_song_model false syncFile chunks statsOf).2
        = false) ∧
    (rebuild_rows chunks = Except.ok rows →
      cache_song_model false syncFile chunks statsOf
        = ([FileWrite.syncMatrix
              (cache_store (statsOf rows).1 (statsOf rows).2 rows),
            FileWrite.configSidecar],
           Except.ok ((statsOf rows).1, (statsOf rows).2,
             cache_store (statsOf rows).1 (statsOf rows).2 rows))) := by
  constructor
  · intro h
    cases hre : rebuild_rows chunks with
    | error e => simp [cache_song_model, hre, exceptIsOk]
    | ok rs =>
      have hok := rebuild_rows_isOk chunks
      rw [hre, h] at hok
      exact absurd hok (by simp [exceptIsOk])
  · intro h
    simp [cache_song_model, h]

/-- C6 witness: a stream whose second chunk fails to decode writes nothing
and surfaces the error; the same stream without the failure writes the
matrix and the configuration sidecar. -/
theorem C6_theorem_witness :
    ((cache_song_model false Option.none chunksW6bad statsW6).1 = [] ∧
      exceptIsOk (cache_song_model false Option.none chunksW6bad statsW6).2
        = false) ∧
    cache_song_model false Option.none chunksW6good statsW6
      = ([FileWrite.syncMatrix [[2], [12], [1]], FileWrite.configSidecar],
         Except.ok ([12], [2], [[2], [12], [1]])) :=
  ⟨(C6_theorem Option.none chunksW6bad statsW6 [[1]]).1 rfl,
   (C6_theorem Option.none chunksW6good statsW6 [[1]]).2 rfl⟩

theorem octaves_pos (minF maxF : ℝ) (hm : 0 < minF) (hmm : minF < maxF) :
    0 < octaves minF maxF := by
  unfold octaves
  exact div_pos (Real.log_pos ((one_lt_div hm).mpr hmm))
    (Real.log_pos (by norm_num))

theorem octaves_per_channel_pos (minF maxF : ℝ) (n : ℕ)
    (hm : 0 < minF) (hmm : minF < maxF) (hn : 0 < n) :
    0 < octaves_per_channel minF maxF n :=
  div_pos (octaves_pos minF maxF hm hmm) (Nat.cast_pos.mpr hn)

theorem freqRatio_gt_one (minF maxF : ℝ) (n : ℕ)
    (hm : 0 < minF) (hmm : minF < maxF) (hn : 0 < n) :
    1 < freqRatio minF maxF n := by
  unfold freqRatio
  have hopc := octaves_per_channel_pos minF maxF n hm hmm hn
  have hden : (0:ℝ) < 10 * (1 / octaves_per_channel minF maxF n) :=
    mul_pos (by norm_num) (one_div_pos.mpr hopc)
  have hexp : (0:ℝ) < 3 / (10 * (1 / octaves_per_channel minF maxF n)) :=
    div_pos (by norm_num) hden
  exact (Real.one_lt_rpow_iff_of_pos (by norm_num)).mpr
    (Or.inl ⟨by norm_num, hexp⟩)

theorem freqLimit_pos (minF maxF : ℝ) (n : ℕ)
    (hm : 0 < minF) (hmm : minF < maxF) (hn : 0 < n) :
    ∀ i, 0 < freqLimit minF maxF n i := by
  intro i
  induction i with
  | zero => exact hm
  | succ i ih =>
    exact mul_pos ih
      (lt_trans one_pos (freqRatio_gt_one minF maxF n hm hmm hn))

theorem freqLimit_lt_succ (minF maxF : ℝ) (n : ℕ)
    (hm : 0 < minF) (hmm : minF < maxF) (hn : 0 < n) (i : ℕ) :
    freqLimit minF maxF n i < freqLimit minF maxF n (i + 1) := by
  have hpos := freqLimit_pos minF maxF n hm hmm hn i
  have hr := freqRatio_gt_one minF maxF n hm hmm hn
  calc freqLimit minF maxF n i = freqLimit minF maxF n i * 1 :=
        (mul_one _).symm
    _ < freqLimit minF maxF n i * freqRatio minF maxF n :=
        (mul_lt_mul_left hpos).mpr hr
    _ = freqLimit minF maxF n (i + 1) := rfl

theorem freqLimit_eq_pow (minF maxF : ℝ) (n : ℕ) :
    ∀ i, freqLimit minF maxF n i = minF * freqRatio minF maxF n ^ i := by
  intro i
  induction i with
  | zero => simp [freqLimit]
  | succ i ih =>
    show freqLimit minF maxF n i * freqRatio minF maxF n = _
    rw [ih, pow_succ, mul_assoc]

theorem log_ten_cube_lt_log_two_pow_ten : 3 * Real.log 10 < 10 * Real.log 2 := by
  have h1 : Real.log 1000 < Real.log 1024 :=
    Real.log_lt_log (by norm_num) (by norm_num)
  have h2 : (1000:ℝ) = 10 ^ (3:ℕ) := by norm_num
  have h3 : (1024:ℝ) = 2 ^ (10:ℕ) := by norm_num
  rw [h2, h3, Real.log_pow, Real.log_pow] at h1
  push_cast at h1
  linarith

theorem freqLimit_last_lt (minF maxF : ℝ) (n : ℕ)
    (hm : 0 < minF) (hmm : minF < maxF) (hn : 0 < n) :
    freqLimit minF maxF n n < maxF := by
  have hopc := octaves_per_channel_pos minF maxF n hm hmm hn
  have hopc0 : octaves_per_channel minF maxF n ≠ 0 := ne_of_gt hopc
  have hn0 : (n:ℝ) ≠ 0 := Nat.cast_ne_zero.mpr (Nat.pos_iff_ne_zero.mp hn)
  have hR1 : 1 < maxF / minF := (one_lt_div hm).mpr hmm
  have hRpos : 0 < maxF / minF := lt_trans one_pos hR1
  have hlogR : 0 < Real.log (maxF / minF) := Real.log_pos hR1
  have hlog2 : (0:ℝ) < Real.log 2 := Real.log_pos (by norm_num)
  have hlog10 : (0:ℝ) < Real.log 10 := Real.log_pos (by norm_num)
  have hexp : 3 / (10 * (1 / octaves_per_channel minF maxF n))
      = (3 / 10) * octaves_per_channel minF maxF n := by
    field_simp
  have hpow : freqRatio minF maxF n ^ n
      = (10:ℝ) ^ ((3 / 10) * octaves minF maxF) := by
    unfold freqRatio
    rw [hexp, ← Real.rpow_natCast
        ((10:ℝ) ^ ((3 / 10) * octaves_per_channel minF maxF n)) n,
      ← Real.rpow_mul (by norm_num : (0:ℝ) ≤ 10)]
    congr 1
    unfold octaves_per_channel
    field_simp
    ring
  have hexp_lt : (3 / 10) * octaves minF maxF
      < Real.logb 10 (maxF / minF) := by
    unfold octaves Real.logb
    have heq : (3 / 10 : ℝ) * (Real.log (maxF / minF) / Real.log 2)
        = (3 * Real.log (maxF / minF)) / (10 * Real.log 2) := by ring
    rw [heq, div_lt_div_iff₀ (by positivity) hlog10]
    nlinarith [log_ten_cube_lt_log_two_pow_ten, hlogR]
  have hlt : (10:ℝ) ^ ((3 / 10) * octaves minF maxF)
      < (10:ℝ) ^ Real.logb 10 (maxF / minF) :=
    (Real.rpow_lt_rpow_left_iff (by norm_num)).mpr hexp_lt
  rw [Real.rpow_logb (by norm_num) (by norm_num) hRpos] at hlt
  calc freqLimit minF maxF n n = minF * freqRatio minF maxF n ^ n :=
        freqLimit_eq_pow minF maxF n n
    _ = minF * (10:ℝ) ^ ((3 / 10) * octaves minF maxF) := by rw [hpow]
    _ < minF * (maxF / minF) := (mul_lt_mul_left hm).mpr hlt
    _ = maxF := by
        rw [mul_comm, div_mul_cancel₀ _ (ne_of_gt hm)]

/-- C8 counterexample: in the cited scenario (chunk_size 1024, sample rate
44100, 8 channels, 20 Hz to 15000 Hz, no custom mapping) the last frequency
boundary produced by calculate_channel_frequency is strictly below
15000 Hz, so the 8 bands do not span 20→15000 Hz: the source multiplies by
10^(0.3·octaves_per_channel) per step, and 10^0.3 < 2 because
10^3 < 2^10. -/
theorem C8_counterexample : freqLimit 20 15000 8 8 < 15000 :=
  freqLimit_last_lt 20 15000 8 (by norm_num) (by norm_num) (by norm_num)

/-- C8 (amended): for every valid configuration without custom mapping or
custom frequencies, calculate_channel_frequency returns exactly num_bins
bands; the boundary sequence is strictly increasing, starts at
min_frequency, and each boundary is the previous one times the fixed
multiplier 10^(3/(10/octaves_per_channel)); the final boundary is strictly
below max_frequency (not equal to it), because 3/10 underestimates
log10(2). -/
theorem C8_theorem (minF maxF : ℝ) (n : ℕ)
    (hm : 0 < minF) (hmm : minF < maxF) (hn : 0 < n) :
    (calculate_channel_frequency minF maxF n).length = n ∧
    StrictMono (freqLimit minF maxF n) ∧
    freqLimit minF maxF n 0 = minF ∧
    freqLimit minF maxF n n < maxF := by
  refine ⟨?_, ?_, rfl, freqLimit_last_lt minF maxF n hm hmm hn⟩
  · simp [calculate_channel_frequency]
  · exact strictMono_nat_of_lt_succ
      (freqLimit_lt_succ minF maxF n hm hmm hn)

/-- C8 witness: the scenario-A configuration. -/
theorem C8_theorem_witness :
    (calculate_channel_frequency 20 15000 8).length = 8 ∧
    StrictMono (freqLimit 20 15000 8) ∧
    freqLimit 20 15000 8 0 = 20 ∧
    freqLimit 20 15000 8 8 < 15000 :=
  C8_theorem 20 15000 8 (by norm_num) (by norm_num) (by norm_num)

end LightshowPi
